import Mathlib

/-!
Shallow embedding of `src/graph.cpp`: a dense, index-addressed directed
multigraph.  Node values are modelled by a type parameter `α` (the C++ code
stores `double`; no claim depends on arithmetic over the values).  `std::size_t`
indices are modelled as `Nat`; the only place the machine width matters is the
"no parent" sentinel `std::numeric_limits<std::size_t>::max()`, modelled
explicitly as `SIZE_MAX = 2 ^ 64 - 1`.
-/

/-- Status codes, mirroring `enum GraphStatus` in `src/graph.cpp`. -/
inductive GraphStatus where
  | success
  | invalidParent
  | invalidNode
  | invalidEdge
deriving DecidableEq, Repr

/-- The graph store, mirroring `struct Graph`: a vector of node values and a
parallel vector of adjacency (out-neighbour) lists. -/
structure Graph (α : Type) where
  node_data : List α
  adj : List (List Nat)
deriving DecidableEq, Repr

/-- The `std::size_t` sentinel used by `Graph_addNode` for "no parent". -/
def SIZE_MAX : Nat := 2 ^ 64 - 1

/-- The freshly constructed graph `Graph g;`: both vectors empty. -/
def Graph.empty (α : Type) : Graph α := ⟨[], []⟩

/-- The adjacency list of node `i` (`g.adj[i]` in the C++ code; `[]` when `i`
is out of range, which the C++ code never reads). -/
def Graph.adjAt {α : Type} (g : Graph α) (i : Nat) : List Nat :=
  (g.adj[i]?).getD []

/-- Embedding of `Graph_addNode`: push the value and a fresh empty adjacency
list, then (for a non-sentinel parent) validate `parent < new_index` and append
the edge `parent → new_index`.  Returns the new state, the out-parameter
`out_node`, and the status. -/
def Graph_addNode {α : Type} (g : Graph α) (val : α) (parent : Nat) :
    Graph α × Nat × GraphStatus :=
  let new_index := g.node_data.length
  let g1 : Graph α := ⟨g.node_data ++ [val], g.adj ++ [[]]⟩
  if parent ≠ SIZE_MAX then
    if parent < new_index then
      (⟨g1.node_data, g1.adj.set parent (g1.adjAt parent ++ [new_index])⟩,
        new_index, .success)
    else
      (g1, new_index, .invalidParent)
  else
    (g1, new_index, .success)

/-- Embedding of `Graph_addEdge`: bounds-check both endpoints against the node
count, then push `target` onto `source`'s adjacency list. -/
def Graph_addEdge {α : Type} (g : Graph α) (source target : Nat) :
    Graph α × GraphStatus :=
  if g.node_data.length ≤ source ∨ g.node_data.length ≤ target then
    (g, .invalidEdge)
  else
    (⟨g.node_data, g.adj.set source (g.adjAt source ++ [target])⟩, .success)

/-- Embedding of `Graph_removeEdge`: bounds-check `source` against `adj.size()`,
then `std::find` the first occurrence of `target` and erase it. -/
def Graph_removeEdge {α : Type} (g : Graph α) (source target : Nat) :
    Graph α × GraphStatus :=
  if g.adj.length ≤ source then
    (g, .invalidEdge)
  else
    let neighbors := g.adjAt source
    if target ∈ neighbors then
      (⟨g.node_data, g.adj.set source (neighbors.erase target)⟩, .success)
    else
      (g, .invalidEdge)

/-- The per-list rewrite performed by `Graph_removeNode`'s loop body: the
erase–remove idiom deletes every element equal to `node`, then the
`std::for_each` decrements every element greater than `node`. -/
def fixupNeighbors (node : Nat) (l : List Nat) : List Nat :=
  (l.filter (fun t => t != node)).map (fun t => if node < t then t - 1 else t)

/-- Embedding of `Graph_removeNode`: bounds-check `node`, erase its value and
adjacency entries, and apply `fixupNeighbors` to every surviving list. -/
def Graph_removeNode {α : Type} (g : Graph α) (node : Nat) :
    Graph α × GraphStatus :=
  if g.node_data.length ≤ node then
    (g, .invalidNode)
  else
    (⟨g.node_data.eraseIdx node,
      (g.adj.eraseIdx node).map (fixupNeighbors node)⟩, .success)

/-- Modelled from the spec (§4.1 removeNode, steps 2–3, as restated by the
claims): drop every target equal to `node`, send each target greater than
`node` to its predecessor, and keep each target less than `node` unchanged.
Used to compare the code's `fixupNeighbors` against the spec's wording. -/
def removeNodeRewrite (node : Nat) (l : List Nat) : List Nat :=
  l.filterMap (fun t =>
    if t = node then none else if node < t then some (t - 1) else some t)

/-- States reachable from the empty graph by the four mutating operations. -/
inductive Reachable {α : Type} : Graph α → Prop where
  | empty : Reachable (Graph.empty α)
  | addNode (g : Graph α) (v : α) (p : Nat) :
      Reachable g → Reachable (Graph_addNode g v p).1
  | addEdge (g : Graph α) (s t : Nat) :
      Reachable g → Reachable (Graph_addEdge g s t).1
  | removeEdge (g : Graph α) (s t : Nat) :
      Reachable g → Reachable (Graph_removeEdge g s t).1
  | removeNode (g : Graph α) (k : Nat) :
      Reachable g → Reachable (Graph_removeNode g k).1

/-- The no-dangling-references invariant: every adjacency entry is a live node
index. -/
def Graph.WF {α : Type} (g : Graph α) : Prop :=
  ∀ l ∈ g.adj, ∀ t ∈ l, t < g.node_data.length

/-- The parallel-vectors invariant: one adjacency list per node. -/
def Graph.sameLen {α : Type} (g : Graph α) : Prop :=
  g.adj.length = g.node_data.length

/-- A three-node graph whose node 0 has adjacency `[2, 2, 2]`, used for the
first-occurrence scenario of `Graph_removeEdge`. -/
def tripleEdgeGraph : Graph Nat := ⟨[0, 0, 0], [[2, 2, 2], [], []]⟩

/-- A small two-node graph with one edge in each direction, used as a concrete
input in witnesses. -/
def sampleGraph : Graph Nat := ⟨[1, 2], [[1], [0]]⟩

/-- A two-node graph where node 1 has a self-loop; removing node 0 shifts that
self-loop target from 1 down to 0. -/
def shiftGraph : Graph Nat := ⟨[10, 20], [[], [1]]⟩

/-- The one-node graph produced by `Graph_addNode` on the empty graph with the
sentinel parent; a minimal reachable state used in witnesses. -/
def oneNodeGraph : Graph Nat := ⟨[5], [[]]⟩

/-! ### Helper lemmas about lists and `fixupNeighbors` -/

theorem eraseIdx_get_eq {α : Type} (l : List α) (k i : Nat) :
    (l.eraseIdx k)[i]? = if i < k then l[i]? else l[i + 1]? := by
  induction l generalizing k i with
  | nil => simp [List.eraseIdx]
  | cons a l ih =>
    cases k with
    | zero => simp [List.eraseIdx]
    | succ k =>
      cases i with
      | zero => simp [List.eraseIdx]
      | succ i =>
        simp [List.eraseIdx, ih, Nat.succ_lt_succ_iff]

theorem fixupNeighbors_eq_rewrite (k : Nat) (l : List Nat) :
    fixupNeighbors k l = removeNodeRewrite k l := by
  induction l with
  | nil => rfl
  | cons a l ih =>
    simp only [fixupNeighbors, removeNodeRewrite, List.filter_cons,
      List.filterMap_cons] at ih ⊢
    by_cases ha : a = k
    · simp [ha, ih]
    · simp only [bne_iff_ne, ne_eq, ha, not_false_eq_true, if_true, if_neg ha,
        List.map_cons, ih]
      split <;> simp

theorem count_fixupNeighbors (k : Nat) (l : List Nat) :
    (fixupNeighbors k l).count k = l.count (k + 1) := by
  induction l with
  | nil => rfl
  | cons a l ih =>
    simp only [fixupNeighbors, List.filter_cons] at ih ⊢
    by_cases ha : a = k
    · subst ha
      simp only [bne_self_eq_false, if_false, List.count_cons]
      have h2 : (a == a + 1) = false := by simp
      simp only [h2, if_false, Nat.add_zero]
      exact ih
    · simp only [bne_iff_ne, ne_eq, ha, not_false_eq_true, if_true,
        List.map_cons, List.count_cons, ih]
      have hcase : ((if k < a then a - 1 else a) == k) = (a == k + 1) := by
        by_cases h2 : a = k + 1
        · subst h2
          rw [if_pos (Nat.lt_succ_self k)]
          simp
        · rw [beq_eq_false_iff_ne.2 h2]
          rcases Nat.lt_or_ge k a with h | h
          · have h4 : a - 1 ≠ k := by omega
            rw [if_pos h]
            exact beq_eq_false_iff_ne.2 h4
          · rw [if_neg (Nat.not_lt.2 h)]
            exact beq_eq_false_iff_ne.2 ha
      rw [hcase]

theorem mem_fixupNeighbors_of_lt {k t : Nat} {l : List Nat}
    (ht : t ∈ l) (h : t < k) : t ∈ fixupNeighbors k l := by
  unfold fixupNeighbors
  refine List.mem_map.2 ⟨t, List.mem_filter.2 ⟨ht, ?_⟩, ?_⟩
  · simp; omega
  · rw [if_neg (by omega)]

theorem mem_fixupNeighbors_of_gt {k t : Nat} {l : List Nat}
    (ht : t ∈ l) (h : k < t) : t - 1 ∈ fixupNeighbors k l := by
  unfold fixupNeighbors
  refine List.mem_map.2 ⟨t, List.mem_filter.2 ⟨ht, ?_⟩, ?_⟩
  · simp; omega
  · rw [if_pos h]

theorem fixupNeighbors_lt {k n : Nat} {l : List Nat} (hk : k < n)
    (hl : ∀ t ∈ l, t < n) : ∀ t ∈ fixupNeighbors k l, t < n - 1 := by
  intro t ht
  unfold fixupNeighbors at ht
  rcases List.mem_map.1 ht with ⟨t0, ht0, rfl⟩
  rcases List.mem_filter.1 ht0 with ⟨ht0l, hne⟩
  have hb := hl t0 ht0l
  have hne' : t0 ≠ k := by simpa using hne
  split <;> omega

theorem adjAt_mem {α : Type} (g : Graph α) {p : Nat} (hp : p < g.adj.length) :
    g.adjAt p ∈ g.adj := by
  rw [Graph.adjAt, List.getElem?_eq_getElem hp]
  exact List.getElem_mem hp

theorem adjAt_entries_lt {α : Type} {g : Graph α} (hwf : g.WF) (i : Nat) :
    ∀ t ∈ g.adjAt i, t < g.node_data.length := by
  rcases Nat.lt_or_ge i g.adj.length with hi | hi
  · exact hwf _ (adjAt_mem g hi)
  · intro t ht
    rw [Graph.adjAt, List.getElem?_eq_none hi] at ht
    simp at ht

/-! ### Preservation of the two structural invariants -/

theorem addNode_inv {α : Type} (g : Graph α) (v : α) (p : Nat)
    (h1 : g.sameLen) (h2 : g.WF) :
    (Graph_addNode g v p).1.sameLen ∧ (Graph_addNode g v p).1.WF := by
  have h1' : g.adj.length = g.node_data.length := h1
  have base1 : (Graph.mk (g.node_data ++ [v]) (g.adj ++ [[]]) : Graph α).sameLen := by
    simp only [Graph.sameLen, List.length_append, List.length_singleton]
    omega
  have base2 : (Graph.mk (g.node_data ++ [v]) (g.adj ++ [[]]) : Graph α).WF := by
    intro l hl t ht
    simp only [List.mem_append, List.mem_singleton] at hl
    rcases hl with hl | hl
    · have := h2 l hl t ht
      simp only [List.length_append, List.length_singleton]
      omega
    · subst hl; simp at ht
  unfold Graph_addNode
  simp only [ne_eq, ite_not]
  by_cases hps : p = SIZE_MAX
  · simp only [if_pos hps]
    exact ⟨base1, base2⟩
  · simp only [if_neg hps]
    by_cases hlt : p < g.node_data.length
    · simp only [if_pos hlt]
      constructor
      · simp only [Graph.sameLen, List.length_set, List.length_append,
          List.length_singleton]
        omega
      · intro l hl t ht
        rcases List.mem_or_eq_of_mem_set hl with hl | hl
        · exact base2 l hl t ht
        · subst hl
          simp only [List.mem_append, List.mem_singleton] at ht
          rcases ht with ht | ht
          · have hplt : p < (g.adj ++ [[]]).length := by
              simp only [List.length_append, List.length_singleton]; omega
            exact base2 _
              (adjAt_mem (Graph.mk (g.node_data ++ [v]) (g.adj ++ [[]])) hplt) t ht
          · subst ht
            simp only [List.length_append, List.length_singleton]
            omega
    · simp only [if_neg hlt]
      exact ⟨base1, base2⟩

theorem addEdge_inv {α : Type} (g : Graph α) (s t : Nat)
    (h1 : g.sameLen) (h2 : g.WF) :
    (Graph_addEdge g s t).1.sameLen ∧ (Graph_addEdge g s t).1.WF := by
  unfold Graph_addEdge
  by_cases hb : g.node_data.length ≤ s ∨ g.node_data.length ≤ t
  · simp only [hb, if_true]
    exact ⟨h1, h2⟩
  · simp only [hb, if_false]
    push_neg at hb
    have h1' : g.adj.length = g.node_data.length := h1
    constructor
    · simp only [Graph.sameLen, List.length_set]
      omega
    · intro l hl u hu
      rcases List.mem_or_eq_of_mem_set hl with hl | hl
      · exact h2 l hl u hu
      · subst hl
        simp only [List.mem_append, List.mem_singleton] at hu
        rcases hu with hu | hu
        · exact adjAt_entries_lt h2 s u hu
        · subst hu; exact hb.2

theorem removeEdge_inv {α : Type} (g : Graph α) (s t : Nat)
    (h1 : g.sameLen) (h2 : g.WF) :
    (Graph_removeEdge g s t).1.sameLen ∧ (Graph_removeEdge g s t).1.WF := by
  unfold Graph_removeEdge
  by_cases hb : g.adj.length ≤ s
  · simp only [hb, if_true]
    exact ⟨h1, h2⟩
  · simp only [hb, if_false]
    by_cases hm : t ∈ g.adjAt s
    · simp only [hm, if_true]
      have h1' : g.adj.length = g.node_data.length := h1
      constructor
      · simp only [Graph.sameLen, List.length_set]
        omega
      · intro l hl u hu
        rcases List.mem_or_eq_of_mem_set hl with hl | hl
        · exact h2 l hl u hu
        · subst hl
          have hu' : u ∈ g.adjAt s :=
            ((g.adjAt s).erase_sublist t).mem hu
          exact adjAt_entries_lt h2 s u hu'
    · simp only [hm, if_false]
      exact ⟨h1, h2⟩

theorem removeNode_inv {α : Type} (g : Graph α) (k : Nat)
    (h1 : g.sameLen) (h2 : g.WF) :
    (Graph_removeNode g k).1.sameLen ∧ (Graph_removeNode g k).1.WF := by
  unfold Graph_removeNode
  by_cases hb : g.node_data.length ≤ k
  · simp only [hb, if_true]
    exact ⟨h1, h2⟩
  · simp only [hb, if_false]
    push_neg at hb
    have h1' : g.adj.length = g.node_data.length := h1
    have hka : k < g.adj.length := by omega
    constructor
    · simp only [Graph.sameLen, List.length_map, List.length_eraseIdx,
        if_pos hka, if_pos hb]
      omega
    · intro l hl u hu
      simp only [List.mem_map] at hl
      rcases hl with ⟨l0, hl0, rfl⟩
      have hl0' : l0 ∈ g.adj := (g.adj.eraseIdx_sublist k).mem hl0
      have hlt := fixupNeighbors_lt hb (h2 l0 hl0') u hu
      simp only [List.length_eraseIdx, if_pos hb]
      exact hlt

theorem fixupNeighbors_fun_eq (k : Nat) :
    fixupNeighbors k = removeNodeRewrite k :=
  funext (fixupNeighbors_eq_rewrite k)

theorem reachable_inv {α : Type} {g : Graph α} (h : Reachable g) :
    g.sameLen ∧ g.WF := by
  induction h with
  | empty =>
      constructor
      · rfl
      · intro l hl
        simp [Graph.empty] at hl
  | addNode g v p _ ih => exact addNode_inv g v p ih.1 ih.2
  | addEdge g s t _ ih => exact addEdge_inv g s t ih.1 ih.2
  | removeEdge g s t _ ih => exact removeEdge_inv g s t ih.1 ih.2
  | removeNode g k _ ih => exact removeNode_inv g k ih.1 ih.2

/-! ### Claim theorems -/

/-- C1: for every graph state with one adjacency list per node and every node
index `k` below the node count, `Graph_removeNode g k` returns `success`,
decreases the node count by 1, deletes node `k`'s value and adjacency list,
and rewrites every remaining adjacency list by removing all occurrences (not
just the first) of `k`, decrementing by 1 every remaining target strictly
greater than `k`, and leaving every remaining target strictly less than `k`
unchanged — the rewrite `removeNodeRewrite`, stated from the spec's words. -/
theorem Graph_removeNode_correct {α : Type} (g : Graph α) (k : Nat)
    (hk : k < g.node_data.length) (hlen : g.adj.length = g.node_data.length) :
    (Graph_removeNode g k).2 = GraphStatus.success ∧
    (Graph_removeNode g k).1.node_data.length + 1 = g.node_data.length ∧
    (Graph_removeNode g k).1.node_data = g.node_data.eraseIdx k ∧
    (Graph_removeNode g k).1.adj.length + 1 = g.adj.length ∧
    (∀ j, j < k → (Graph_removeNode g k).1.adj[j]? =
      (g.adj[j]?).map (removeNodeRewrite k)) ∧
    (∀ j, k ≤ j → (Graph_removeNode g k).1.adj[j]? =
      (g.adj[j + 1]?).map (removeNodeRewrite k)) := by
  have hnot : ¬ g.node_data.length ≤ k := Nat.not_le.2 hk
  have hka : k < g.adj.length := by omega
  simp only [Graph_removeNode, if_neg hnot]
  refine ⟨trivial, ?_, trivial, ?_, ?_, ?_⟩
  · simp only [List.length_eraseIdx, if_pos hk]
    omega
  · simp only [List.length_map, List.length_eraseIdx, if_pos hka]
    omega
  · intro j hj
    rw [List.getElem?_map, eraseIdx_get_eq, if_pos hj, fixupNeighbors_fun_eq]
  · intro j hj
    rw [List.getElem?_map, eraseIdx_get_eq, if_neg (Nat.not_lt.2 hj),
      fixupNeighbors_fun_eq]

/-- Witness for C1: removing node 0 of `sampleGraph`. -/
theorem Graph_removeNode_correct_witness :
    0 < sampleGraph.node_data.length ∧
    sampleGraph.adj.length = sampleGraph.node_data.length ∧
    ((Graph_removeNode sampleGraph 0).2 = GraphStatus.success ∧
      (Graph_removeNode sampleGraph 0).1.node_data.length + 1 =
        sampleGraph.node_data.length ∧
      (Graph_removeNode sampleGraph 0).1.node_data =
        sampleGraph.node_data.eraseIdx 0 ∧
      (Graph_removeNode sampleGraph 0).1.adj.length + 1 =
        sampleGraph.adj.length ∧
      (∀ j, j < 0 → (Graph_removeNode sampleGraph 0).1.adj[j]? =
        (sampleGraph.adj[j]?).map (removeNodeRewrite 0)) ∧
      (∀ j, 0 ≤ j → (Graph_removeNode sampleGraph 0).1.adj[j]? =
        (sampleGraph.adj[j + 1]?).map (removeNodeRewrite 0))) :=
  ⟨by decide, by decide,
    Graph_removeNode_correct sampleGraph 0 (by decide) (by decide)⟩

/-- C4 counterexample: in the reachable state `shiftGraph = ⟨[10, 20], [[], [1]]⟩`,
`Graph_removeNode` at node 0 succeeds, yet the resulting adjacency structure
`[[0]]` does contain an entry equal to the removed index 0 (the pre-removal
self-loop target 1 was decremented onto it), refuting "no adjacency list
contains k". -/
theorem Graph_removeNode_contains_removed_index :
    Reachable shiftGraph ∧
    0 < shiftGraph.node_data.length ∧
    (Graph_removeNode shiftGraph 0).2 = GraphStatus.success ∧
    ∃ l ∈ (Graph_removeNode shiftGraph 0).1.adj, 0 ∈ l := by
  refine ⟨?_, by decide, by decide, by decide⟩
  have h1 : shiftGraph =
      (Graph_addEdge
        (Graph_addNode (Graph_addNode (Graph.empty Nat) 10 SIZE_MAX).1
          20 SIZE_MAX).1 1 1).1 := by decide
  rw [h1]
  exact .addEdge _ 1 1 (.addNode _ 20 SIZE_MAX (.addNode _ 10 SIZE_MAX .empty))

/-- C4 (amended): after a successful `Graph_removeNode g k`, every remaining
adjacency list IS its pre-removal list with all occurrences of `k` removed,
every target strictly greater than `k` decremented by 1, and targets strictly
less than `k` unchanged — stated as an equality with `removeNodeRewrite k`
applied to the pre-removal list, which pins down multiplicity, order and the
absence of any other entries; consequently a post-state entry equal to `k`
occurs exactly as often as the pre-state had target `k + 1` (so an entry equal
to `k` can remain, but never one that referred to the removed node), every
pre-removal target above `k` appears shifted down by 1, and every pre-removal
target below `k` is still present. -/
theorem Graph_removeNode_reindex {α : Type} (g : Graph α) (k : Nat)
    (hk : k < g.node_data.length) :
    (Graph_removeNode g k).2 = GraphStatus.success ∧
    ∀ i, i < g.adj.length → i ≠ k →
      (Graph_removeNode g k).1.adj[if i < k then i else i - 1]? =
          some (removeNodeRewrite k (g.adjAt i)) ∧
        (removeNodeRewrite k (g.adjAt i)).count k = (g.adjAt i).count (k + 1) ∧
        (∀ t ∈ g.adjAt i, k < t → t - 1 ∈ removeNodeRewrite k (g.adjAt i)) ∧
        (∀ t ∈ g.adjAt i, t < k → t ∈ removeNodeRewrite k (g.adjAt i)) := by
  have hnot : ¬ g.node_data.length ≤ k := Nat.not_le.2 hk
  simp only [Graph_removeNode, if_neg hnot]
  refine ⟨trivial, ?_⟩
  intro i hi hik
  have hfix : removeNodeRewrite k (g.adjAt i) = fixupNeighbors k (g.adjAt i) :=
    (fixupNeighbors_eq_rewrite k (g.adjAt i)).symm
  rw [hfix]
  refine ⟨?_, count_fixupNeighbors k _,
    fun t ht h => mem_fixupNeighbors_of_gt ht h,
    fun t ht h => mem_fixupNeighbors_of_lt ht h⟩
  by_cases hik2 : i < k
  · have h6 : (if i < k then i else i - 1) = i := if_pos hik2
    rw [h6, List.getElem?_map, eraseIdx_get_eq, if_pos hik2]
    simp [Graph.adjAt, List.getElem?_eq_getElem hi]
  · have h5 : ¬ (i - 1 < k) := by omega
    have h6 : (if i < k then i else i - 1) = i - 1 := if_neg hik2
    have h7 : i - 1 + 1 = i := by omega
    rw [h6, List.getElem?_map, eraseIdx_get_eq, if_neg h5, h7]
    simp [Graph.adjAt, List.getElem?_eq_getElem hi]

/-- Witness for the amended C4: removing node 0 of `sampleGraph`. -/
theorem Graph_removeNode_reindex_witness :
    0 < sampleGraph.node_data.length ∧
    ((Graph_removeNode sampleGraph 0).2 = GraphStatus.success ∧
      ∀ i, i < sampleGraph.adj.length → i ≠ 0 →
        (Graph_removeNode sampleGraph 0).1.adj[if i < 0 then i else i - 1]? =
            some (removeNodeRewrite 0 (sampleGraph.adjAt i)) ∧
          (removeNodeRewrite 0 (sampleGraph.adjAt i)).count 0 =
            (sampleGraph.adjAt i).count 1 ∧
          (∀ t ∈ sampleGraph.adjAt i, 0 < t →
            t - 1 ∈ removeNodeRewrite 0 (sampleGraph.adjAt i)) ∧
          (∀ t ∈ sampleGraph.adjAt i, t < 0 →
            t ∈ removeNodeRewrite 0 (sampleGraph.adjAt i))) :=
  ⟨by decide, Graph_removeNode_reindex sampleGraph 0 (by decide)⟩

/-- C2: `Graph_addNode` always appends the node (count +1, returned index is
the pre-insertion count) regardless of the parent argument; with the sentinel
parent or a parent below the new index the status is `success` (in the
non-sentinel case the edge `parent → newIndex` is appended to the parent's
list and no other list changes); with a non-sentinel parent at or above the
new index the status is `invalidParent`, no edge is created, and the node
insertion is not rolled back. -/
theorem Graph_addNode_partial_success {α : Type} (g : Graph α) (v : α) (p : Nat)
    (hlen : g.adj.length = g.node_data.length) :
    (Graph_addNode g v p).2.1 = g.node_data.length ∧
    (Graph_addNode g v p).1.node_data = g.node_data ++ [v] ∧
    (Graph_addNode g v p).1.node_data.length = g.node_data.length + 1 ∧
    (p = SIZE_MAX → (Graph_addNode g v p).2.2 = GraphStatus.success ∧
      (Graph_addNode g v p).1.adj = g.adj ++ [[]]) ∧
    (p ≠ SIZE_MAX → p < g.node_data.length →
      (Graph_addNode g v p).2.2 = GraphStatus.success ∧
      (Graph_addNode g v p).1.adj[p]? =
        some (g.adjAt p ++ [g.node_data.length]) ∧
      ∀ j, j ≠ p → (Graph_addNode g v p).1.adj[j]? = (g.adj ++ [[]])[j]?) ∧
    (p ≠ SIZE_MAX → g.node_data.length ≤ p →
      (Graph_addNode g v p).2.2 = GraphStatus.invalidParent ∧
      (Graph_addNode g v p).1.adj = g.adj ++ [[]]) := by
  refine ⟨?_, ?_, ?_, ?_, ?_, ?_⟩
  · unfold Graph_addNode
    split
    · dsimp only
      split <;> rfl
    · rfl
  · unfold Graph_addNode
    split
    · dsimp only
      split <;> rfl
    · rfl
  · unfold Graph_addNode
    split
    · dsimp only
      split <;> simp
    · simp
  · intro h
    unfold Graph_addNode
    rw [if_neg (fun hc => hc h)]
    exact ⟨rfl, rfl⟩
  · intro hps hlt
    unfold Graph_addNode
    rw [if_pos hps, if_pos hlt]
    refine ⟨rfl, ?_, ?_⟩
    · have hp1 : p < (g.adj ++ [[]]).length := by
        simp only [List.length_append, List.length_singleton]
        omega
      rw [List.getElem?_set_self hp1]
      have h2 : (Graph.mk (g.node_data ++ [v]) (g.adj ++ [[]]) : Graph α).adjAt p =
          g.adjAt p := by
        simp only [Graph.adjAt, List.getElem?_append, if_pos (show p < g.adj.length by omega)]
      rw [h2]
    · intro j hj
      exact List.getElem?_set_ne (Ne.symm hj)
  · intro hps hge
    unfold Graph_addNode
    rw [if_pos hps, if_neg (Nat.not_lt.2 hge)]
    exact ⟨rfl, rfl⟩

/-- Witness for C2: adding a node with the invalid parent 5 to `sampleGraph`. -/
theorem Graph_addNode_partial_success_witness :
    sampleGraph.adj.length = sampleGraph.node_data.length ∧
    ((Graph_addNode sampleGraph 7 5).2.1 = sampleGraph.node_data.length ∧
      (Graph_addNode sampleGraph 7 5).1.node_data = sampleGraph.node_data ++ [7] ∧
      (Graph_addNode sampleGraph 7 5).1.node_data.length =
        sampleGraph.node_data.length + 1 ∧
      ((5 : Nat) = SIZE_MAX → (Graph_addNode sampleGraph 7 5).2.2 = GraphStatus.success ∧
        (Graph_addNode sampleGraph 7 5).1.adj = sampleGraph.adj ++ [[]]) ∧
      ((5 : Nat) ≠ SIZE_MAX → 5 < sampleGraph.node_data.length →
        (Graph_addNode sampleGraph 7 5).2.2 = GraphStatus.success ∧
        (Graph_addNode sampleGraph 7 5).1.adj[5]? =
          some (sampleGraph.adjAt 5 ++ [sampleGraph.node_data.length]) ∧
        ∀ j, j ≠ 5 → (Graph_addNode sampleGraph 7 5).1.adj[j]? =
          (sampleGraph.adj ++ [[]])[j]?) ∧
      ((5 : Nat) ≠ SIZE_MAX → sampleGraph.node_data.length ≤ 5 →
        (Graph_addNode sampleGraph 7 5).2.2 = GraphStatus.invalidParent ∧
        (Graph_addNode sampleGraph 7 5).1.adj = sampleGraph.adj ++ [[]])) :=
  ⟨by decide, Graph_addNode_partial_success sampleGraph 7 5 (by decide)⟩

/-- C6: `Graph_addEdge` returns `invalidEdge` and leaves the graph unchanged
when either endpoint is at or above the node count; otherwise it
unconditionally appends `target` to the end of `source`'s adjacency list and
returns `success` — with no deduplication and no self-loop check, so duplicate
edges and self-loops are permitted. -/
theorem Graph_addEdge_spec {α : Type} (g : Graph α) (s t : Nat)
    (hlen : g.adj.length = g.node_data.length) :
    ((g.node_data.length ≤ s ∨ g.node_data.length ≤ t) →
      (Graph_addEdge g s t).2 = GraphStatus.invalidEdge ∧
      (Graph_addEdge g s t).1 = g) ∧
    (s < g.node_data.length → t < g.node_data.length →
      (Graph_addEdge g s t).2 = GraphStatus.success ∧
      (Graph_addEdge g s t).1.node_data = g.node_data ∧
      (Graph_addEdge g s t).1.adj[s]? = some (g.adjAt s ++ [t])) := by
  constructor
  · intro h
    unfold Graph_addEdge
    rw [if_pos h]
    exact ⟨rfl, rfl⟩
  · intro hs ht
    have hcond : ¬ (g.node_data.length ≤ s ∨ g.node_data.length ≤ t) := by
      omega
    unfold Graph_addEdge
    rw [if_neg hcond]
    refine ⟨rfl, rfl, ?_⟩
    exact List.getElem?_set_self (show s < g.adj.length by omega)

/-- Witness for C6: a duplicate self-loop edge 1 → 1 added to `sampleGraph`. -/
theorem Graph_addEdge_spec_witness :
    sampleGraph.adj.length = sampleGraph.node_data.length ∧
    (((sampleGraph.node_data.length ≤ 1 ∨ sampleGraph.node_data.length ≤ 1) →
      (Graph_addEdge sampleGraph 1 1).2 = GraphStatus.invalidEdge ∧
      (Graph_addEdge sampleGraph 1 1).1 = sampleGraph) ∧
    (1 < sampleGraph.node_data.length → 1 < sampleGraph.node_data.length →
      (Graph_addEdge sampleGraph 1 1).2 = GraphStatus.success ∧
      (Graph_addEdge sampleGraph 1 1).1.node_data = sampleGraph.node_data ∧
      (Graph_addEdge sampleGraph 1 1).1.adj[1]? =
        some (sampleGraph.adjAt 1 ++ [1]))) :=
  ⟨by decide, Graph_addEdge_spec sampleGraph 1 1 (by decide)⟩

/-- C5: `Graph_removeEdge` fails with `invalidEdge` and leaves the graph
unchanged when `source` is at or above the node count or when `target` does
not occur in `source`'s list; otherwise it removes exactly the first
(leftmost) occurrence of `target`, leaving later duplicates untouched, and
returns `success`; in particular on adjacency `[2, 2, 2]` three successive
calls yield `[2, 2]`, `[2]`, `[]` and a fourth returns `invalidEdge`. -/
theorem Graph_removeEdge_spec {α : Type} (g : Graph α) (s t : Nat)
    (hlen : g.adj.length = g.node_data.length) :
    (g.node_data.length ≤ s →
      (Graph_removeEdge g s t).2 = GraphStatus.invalidEdge ∧
      (Graph_removeEdge g s t).1 = g) ∧
    (s < g.node_data.length → t ∉ g.adjAt s →
      (Graph_removeEdge g s t).2 = GraphStatus.invalidEdge ∧
      (Graph_removeEdge g s t).1 = g) ∧
    (s < g.node_data.length → t ∈ g.adjAt s →
      (Graph_removeEdge g s t).2 = GraphStatus.success ∧
      (Graph_removeEdge g s t).1.node_data = g.node_data ∧
      ∃ l₁ l₂, g.adjAt s = l₁ ++ t :: l₂ ∧ t ∉ l₁ ∧
        (Graph_removeEdge g s t).1.adj[s]? = some (l₁ ++ l₂)) ∧
    ((Graph_removeEdge tripleEdgeGraph 0 2).2 = GraphStatus.success ∧
      (Graph_removeEdge tripleEdgeGraph 0 2).1.adjAt 0 = [2, 2] ∧
      (Graph_removeEdge (Graph_removeEdge tripleEdgeGraph 0 2).1 0 2).2 =
        GraphStatus.success ∧
      (Graph_removeEdge (Graph_removeEdge tripleEdgeGraph 0 2).1 0 2).1.adjAt 0 =
        [2] ∧
      (Graph_removeEdge
        (Graph_removeEdge (Graph_removeEdge tripleEdgeGraph 0 2).1 0 2).1
        0 2).2 = GraphStatus.success ∧
      (Graph_removeEdge
        (Graph_removeEdge (Graph_removeEdge tripleEdgeGraph 0 2).1 0 2).1
        0 2).1.adjAt 0 = [] ∧
      (Graph_removeEdge
        (Graph_removeEdge
          (Graph_removeEdge (Graph_removeEdge tripleEdgeGraph 0 2).1 0 2).1
          0 2).1 0 2).2 = GraphStatus.invalidEdge) := by
  refine ⟨?_, ?_, ?_, by decide⟩
  · intro h
    have h' : g.adj.length ≤ s := by omega
    unfold Graph_removeEdge
    rw [if_pos h']
    exact ⟨rfl, rfl⟩
  · intro hs hmem
    have h1 : ¬ g.adj.length ≤ s := by omega
    unfold Graph_removeEdge
    rw [if_neg h1]
    rw [if_neg hmem]
    exact ⟨rfl, rfl⟩
  · intro hs hmem
    have h1 : ¬ g.adj.length ≤ s := by omega
    unfold Graph_removeEdge
    rw [if_neg h1, if_pos hmem]
    refine ⟨rfl, rfl, ?_⟩
    rcases List.exists_erase_eq hmem with ⟨l₁, l₂, hnot, heq, herase⟩
    refine ⟨l₁, l₂, heq, hnot, ?_⟩
    rw [List.getElem?_set_self (show s < g.adj.length by omega), herase]

/-- Witness for C5: removing edge 0 → 1 from `sampleGraph`. -/
theorem Graph_removeEdge_spec_witness :
    sampleGraph.adj.length = sampleGraph.node_data.length ∧
    ((sampleGraph.node_data.length ≤ 0 →
      (Graph_removeEdge sampleGraph 0 1).2 = GraphStatus.invalidEdge ∧
      (Graph_removeEdge sampleGraph 0 1).1 = sampleGraph) ∧
    (0 < sampleGraph.node_data.length → 1 ∉ sampleGraph.adjAt 0 →
      (Graph_removeEdge sampleGraph 0 1).2 = GraphStatus.invalidEdge ∧
      (Graph_removeEdge sampleGraph 0 1).1 = sampleGraph) ∧
    (0 < sampleGraph.node_data.length → 1 ∈ sampleGraph.adjAt 0 →
      (Graph_removeEdge sampleGraph 0 1).2 = GraphStatus.success ∧
      (Graph_removeEdge sampleGraph 0 1).1.node_data = sampleGraph.node_data ∧
      ∃ l₁ l₂, sampleGraph.adjAt 0 = l₁ ++ 1 :: l₂ ∧ 1 ∉ l₁ ∧
        (Graph_removeEdge sampleGraph 0 1).1.adj[0]? = some (l₁ ++ l₂)) ∧
    ((Graph_removeEdge tripleEdgeGraph 0 2).2 = GraphStatus.success ∧
      (Graph_removeEdge tripleEdgeGraph 0 2).1.adjAt 0 = [2, 2] ∧
      (Graph_removeEdge (Graph_removeEdge tripleEdgeGraph 0 2).1 0 2).2 =
        GraphStatus.success ∧
      (Graph_removeEdge (Graph_removeEdge tripleEdgeGraph 0 2).1 0 2).1.adjAt 0 =
        [2] ∧
      (Graph_removeEdge
        (Graph_removeEdge (Graph_removeEdge tripleEdgeGraph 0 2).1 0 2).1
        0 2).2 = GraphStatus.success ∧
      (Graph_removeEdge
        (Graph_removeEdge (Graph_removeEdge tripleEdgeGraph 0 2).1 0 2).1
        0 2).1.adjAt 0 = [] ∧
      (Graph_removeEdge
        (Graph_removeEdge
          (Graph_removeEdge (Graph_removeEdge tripleEdgeGraph 0 2).1 0 2).1
          0 2).1 0 2).2 = GraphStatus.invalidEdge)) :=
  ⟨by decide, Graph_removeEdge_spec sampleGraph 0 1 (by decide)⟩

/-- C7: whenever `Graph_addEdge`, `Graph_removeEdge` or `Graph_removeNode`
returns a status other than `success`, the graph state (node sequence and all
adjacency lists) is exactly what it was before the call: failure paths perform
no partial mutation. -/
theorem failed_ops_unchanged {α : Type} (g : Graph α) (s t k : Nat) :
    ((Graph_addEdge g s t).2 ≠ GraphStatus.success →
      (Graph_addEdge g s t).1 = g) ∧
    ((Graph_removeEdge g s t).2 ≠ GraphStatus.success →
      (Graph_removeEdge g s t).1 = g) ∧
    ((Graph_removeNode g k).2 ≠ GraphStatus.success →
      (Graph_removeNode g k).1 = g) := by
  refine ⟨?_, ?_, ?_⟩
  · intro h
    by_cases hc : g.node_data.length ≤ s ∨ g.node_data.length ≤ t
    · unfold Graph_addEdge
      rw [if_pos hc]
    · exfalso
      apply h
      unfold Graph_addEdge
      rw [if_neg hc]
  · intro h
    by_cases hc : g.adj.length ≤ s
    · unfold Graph_removeEdge
      rw [if_pos hc]
    · by_cases hm : t ∈ g.adjAt s
      · exfalso
        apply h
        unfold Graph_removeEdge
        rw [if_neg hc]
        dsimp only
        rw [if_pos hm]
      · unfold Graph_removeEdge
        rw [if_neg hc]
        dsimp only
        rw [if_neg hm]
  · intro h
    by_cases hc : g.node_data.length ≤ k
    · unfold Graph_removeNode
      rw [if_pos hc]
    · exfalso
      apply h
      unfold Graph_removeNode
      rw [if_neg hc]

/-- Witness for C7: on `sampleGraph`, the failing calls `addEdge 5 0`,
`removeEdge 5 0` and `removeNode 5` all leave the graph untouched. -/
theorem failed_ops_unchanged_witness :
    (Graph_addEdge sampleGraph 5 0).1 = sampleGraph ∧
    (Graph_removeEdge sampleGraph 5 0).1 = sampleGraph ∧
    (Graph_removeNode sampleGraph 5).1 = sampleGraph :=
  ⟨(failed_ops_unchanged sampleGraph 5 0 5).1 (by decide),
    (failed_ops_unchanged sampleGraph 5 0 5).2.1 (by decide),
    (failed_ops_unchanged sampleGraph 5 0 5).2.2 (by decide)⟩

/-- C9: a successful `Graph_addEdge` or `Graph_removeEdge` call modifies only
`source`'s adjacency list: the node values and the adjacency list of every
index other than `source` are unchanged. -/
theorem edge_ops_frame {α : Type} (g : Graph α) (s t : Nat) :
    ((Graph_addEdge g s t).2 = GraphStatus.success →
      (Graph_addEdge g s t).1.node_data = g.node_data ∧
      ∀ j, j ≠ s → (Graph_addEdge g s t).1.adj[j]? = g.adj[j]?) ∧
    ((Graph_removeEdge g s t).2 = GraphStatus.success →
      (Graph_removeEdge g s t).1.node_data = g.node_data ∧
      ∀ j, j ≠ s → (Graph_removeEdge g s t).1.adj[j]? = g.adj[j]?) := by
  constructor
  · intro _
    by_cases hc : g.node_data.length ≤ s ∨ g.node_data.length ≤ t
    · unfold Graph_addEdge
      rw [if_pos hc]
      exact ⟨rfl, fun j hj => rfl⟩
    · unfold Graph_addEdge
      rw [if_neg hc]
      exact ⟨rfl, fun j hj => List.getElem?_set_ne (Ne.symm hj)⟩
  · intro _
    by_cases hc : g.adj.length ≤ s
    · unfold Graph_removeEdge
      rw [if_pos hc]
      exact ⟨rfl, fun j hj => rfl⟩
    · by_cases hm : t ∈ g.adjAt s
      · unfold Graph_removeEdge
        rw [if_neg hc]
        dsimp only
        rw [if_pos hm]
        exact ⟨rfl, fun j hj => List.getElem?_set_ne (Ne.symm hj)⟩
      · unfold Graph_removeEdge
        rw [if_neg hc]
        dsimp only
        rw [if_neg hm]
        exact ⟨rfl, fun j hj => rfl⟩

/-- Witness for C9: the successful calls `addEdge 0 1` and `removeEdge 0 1`
on `sampleGraph` leave node values and node 1's adjacency list unchanged. -/
theorem edge_ops_frame_witness :
    ((Graph_addEdge sampleGraph 0 1).1.node_data = sampleGraph.node_data ∧
      ∀ j, j ≠ 0 → (Graph_addEdge sampleGraph 0 1).1.adj[j]? =
        sampleGraph.adj[j]?) ∧
    ((Graph_removeEdge sampleGraph 0 1).1.node_data = sampleGraph.node_data ∧
      ∀ j, j ≠ 0 → (Graph_removeEdge sampleGraph 0 1).1.adj[j]? =
        sampleGraph.adj[j]?) :=
  ⟨(edge_ops_frame sampleGraph 0 1).1 (by decide),
    (edge_ops_frame sampleGraph 0 1).2 (by decide)⟩

/-- C3: in every state reachable from the empty graph, every entry of every
adjacency list is strictly below the node count, and each of the four
operations preserves this invariant from any reachable state. -/
theorem reachable_no_dangling {α : Type} (g : Graph α) (h : Reachable g) :
    (∀ l ∈ g.adj, ∀ t ∈ l, t < g.node_data.length) ∧
    (∀ v p, ∀ l ∈ (Graph_addNode g v p).1.adj, ∀ t ∈ l,
      t < (Graph_addNode g v p).1.node_data.length) ∧
    (∀ s t', ∀ l ∈ (Graph_addEdge g s t').1.adj, ∀ t ∈ l,
      t < (Graph_addEdge g s t').1.node_data.length) ∧
    (∀ s t', ∀ l ∈ (Graph_removeEdge g s t').1.adj, ∀ t ∈ l,
      t < (Graph_removeEdge g s t').1.node_data.length) ∧
    (∀ k, ∀ l ∈ (Graph_removeNode g k).1.adj, ∀ t ∈ l,
      t < (Graph_removeNode g k).1.node_data.length) := by
  have hg := reachable_inv h
  exact ⟨hg.2,
    fun v p => (addNode_inv g v p hg.1 hg.2).2,
    fun s t' => (addEdge_inv g s t' hg.1 hg.2).2,
    fun s t' => (removeEdge_inv g s t' hg.1 hg.2).2,
    fun k => (removeNode_inv g k hg.1 hg.2).2⟩

/-- Witness for C3 at the reachable one-node graph. -/
theorem reachable_no_dangling_witness :
    (∀ l ∈ oneNodeGraph.adj, ∀ t ∈ l, t < oneNodeGraph.node_data.length) ∧
    (∀ v p, ∀ l ∈ (Graph_addNode oneNodeGraph v p).1.adj, ∀ t ∈ l,
      t < (Graph_addNode oneNodeGraph v p).1.node_data.length) ∧
    (∀ s t', ∀ l ∈ (Graph_addEdge oneNodeGraph s t').1.adj, ∀ t ∈ l,
      t < (Graph_addEdge oneNodeGraph s t').1.node_data.length) ∧
    (∀ s t', ∀ l ∈ (Graph_removeEdge oneNodeGraph s t').1.adj, ∀ t ∈ l,
      t < (Graph_removeEdge oneNodeGraph s t').1.node_data.length) ∧
    (∀ k, ∀ l ∈ (Graph_removeNode oneNodeGraph k).1.adj, ∀ t ∈ l,
      t < (Graph_removeNode oneNodeGraph k).1.node_data.length) :=
  reachable_no_dangling oneNodeGraph (by
    have h1 : oneNodeGraph = (Graph_addNode (Graph.empty Nat) 5 SIZE_MAX).1 := by
      decide
    rw [h1]
    exact .addNode _ 5 SIZE_MAX .empty)

/-- C8: in every state reachable from the empty graph, the number of adjacency
lists equals the number of nodes, and each of the four operations preserves
this equality from any reachable state. -/
theorem reachable_parallel_lengths {α : Type} (g : Graph α) (h : Reachable g) :
    g.adj.length = g.node_data.length ∧
    (∀ v p, (Graph_addNode g v p).1.adj.length =
      (Graph_addNode g v p).1.node_data.length) ∧
    (∀ s t, (Graph_addEdge g s t).1.adj.length =
      (Graph_addEdge g s t).1.node_data.length) ∧
    (∀ s t, (Graph_removeEdge g s t).1.adj.length =
      (Graph_removeEdge g s t).1.node_data.length) ∧
    (∀ k, (Graph_removeNode g k).1.adj.length =
      (Graph_removeNode g k).1.node_data.length) := by
  have hg := reachable_inv h
  exact ⟨hg.1,
    fun v p => (addNode_inv g v p hg.1 hg.2).1,
    fun s t => (addEdge_inv g s t hg.1 hg.2).1,
    fun s t => (removeEdge_inv g s t hg.1 hg.2).1,
    fun k => (removeNode_inv g k hg.1 hg.2).1⟩

/-- Witness for C8 at the reachable one-node graph. -/
theorem reachable_parallel_lengths_witness :
    oneNodeGraph.adj.length = oneNodeGraph.node_data.length ∧
    (∀ v p, (Graph_addNode oneNodeGraph v p).1.adj.length =
      (Graph_addNode oneNodeGraph v p).1.node_data.length) ∧
    (∀ s t, (Graph_addEdge oneNodeGraph s t).1.adj.length =
      (Graph_addEdge oneNodeGraph s t).1.node_data.length) ∧
    (∀ s t, (Graph_removeEdge oneNodeGraph s t).1.adj.length =
      (Graph_removeEdge oneNodeGraph s t).1.node_data.length) ∧
    (∀ k, (Graph_removeNode oneNodeGraph k).1.adj.length =
      (Graph_removeNode oneNodeGraph k).1.node_data.length) :=
  reachable_parallel_lengths oneNodeGraph (by
    have h1 : oneNodeGraph = (Graph_addNode (Graph.empty Nat) 5 SIZE_MAX).1 := by
      decide
    rw [h1]
    exact .addNode _ 5 SIZE_MAX .empty)

/-- C10: in any reachable state, `Graph_removeEdge` with an in-range source
and an out-of-range target returns `invalidEdge` and leaves the graph
unchanged, although the code performs no explicit range check on the target:
the first-occurrence search finds no match because no adjacency entry of a
reachable state is out of range. -/
theorem removeEdge_oob_target {α : Type} (g : Graph α) (s t : Nat)
    (hg : Reachable g) (hs : s < g.node_data.length)
    (ht : g.node_data.length ≤ t) :
    (Graph_removeEdge g s t).2 = GraphStatus.invalidEdge ∧
    (Graph_removeEdge g s t).1 = g := by
  have hinv := reachable_inv hg
  have h1' : g.adj.length = g.node_data.length := hinv.1
  have h1 : ¬ g.adj.length ≤ s := by omega
  have hm : t ∉ g.adjAt s := by
    intro hmem
    have := adjAt_entries_lt hinv.2 s t hmem
    omega
  unfold Graph_removeEdge
  rw [if_neg h1]
  dsimp only
  rw [if_neg hm]
  exact ⟨rfl, rfl⟩

/-- Witness for C10: `removeEdge 0 5` on the reachable one-node graph. -/
theorem removeEdge_oob_target_witness :
    0 < oneNodeGraph.node_data.length ∧
    oneNodeGraph.node_data.length ≤ 5 ∧
    ((Graph_removeEdge oneNodeGraph 0 5).2 = GraphStatus.invalidEdge ∧
      (Graph_removeEdge oneNodeGraph 0 5).1 = oneNodeGraph) :=
  ⟨by decide, by decide,
    removeEdge_oob_target oneNodeGraph 0 5 (by
      have h1 : oneNodeGraph = (Graph_addNode (Graph.empty Nat) 5 SIZE_MAX).1 := by
        decide
      rw [h1]
      exact .addNode _ 5 SIZE_MAX .empty) (by decide) (by decide)⟩
